import Mathlib

/-!
Shallow embedding of the cleanup/retention subsystem of the Playwright
automation framework (`utilities/cleanup_utils.py`, configuration constants
from `config/config.py`).

Modelling conventions:
* The filesystem is a record `FS`: each of the three root directories
  (reports, logs, screenshots) is `Option` of its listing — `none` models a
  missing directory, `some l` models an existing directory whose entries
  appear in `l` in the order produced by the underlying directory listing
  (`glob.glob` / `os.listdir` order).
* A report/log file is a `FileEntry` (basename and mtime, in whole seconds);
  a screenshot folder is a `Folder` (basename and ctime).  Sort keys mirror
  `os.path.getmtime` / `os.path.getctime`.
* `os.remove` / `shutil.rmtree` are modelled by removing the entry with the
  given name from the listing.  The per-entry `try/except` of the Python code
  is modelled by an environment oracle `fail : String → Bool`: when
  `fail name` is true the deletion raises (the entry stays, an error is
  logged), otherwise it succeeds; in both cases the loop continues, so the
  Lean functions are total — no exception escapes the operation.
* The logger is modelled by the list of emitted `LogMsg` values (level and
  text) returned next to the new filesystem state.
* `datetime.fromtimestamp(..).strftime("%Y-%m-%d_%H-%M-%S")` is modelled by
  `strftime_token`, converting epoch seconds to a civil date (the process is
  assumed to run with a UTC local timezone) with the standard
  days-to-civil-date algorithm, zero-padded exactly as `strftime` pads.
-/

/-- Log levels used by the subsystem (`logger.info` / `logger.error`). -/
inductive LogLevel where
  | info : LogLevel
  | error : LogLevel
deriving DecidableEq, Repr

/-- One emitted log message. -/
structure LogMsg where
  level : LogLevel
  msg : String
deriving DecidableEq, Repr

/-- A regular file in the reports or logs directory: basename and mtime
(`os.path.getmtime`, whole seconds since the epoch). -/
structure FileEntry where
  name : String
  mtime : Nat
deriving DecidableEq, Repr

/-- An immediate subdirectory of the screenshots directory: basename and
ctime (`os.path.getctime`, whole seconds since the epoch). -/
structure Folder where
  name : String
  ctime : Nat
deriving DecidableEq, Repr

/-- The filesystem state seen by the subsystem: the three root directories of
`DIRECTORY_PATHS`.  `none` = the directory does not exist; `some l` = it
exists and lists `l` (in directory-listing order). -/
structure FS where
  reportsDir : Option (List FileEntry)
  logsDir : Option (List FileEntry)
  screenshotsDir : Option (List Folder)
deriving DecidableEq, Repr

/-- Constant `REPORTING_SETTINGS["max_reports_to_keep"]` from `config.py`. -/
def max_reports_to_keep : Nat := 5

/-- Constant `SCREENSHOT_SETTINGS["max_screenshots_to_keep"]` from `config.py`. -/
def max_screenshots_to_keep : Nat := 5

/-- Python `x or default` applied to an `Optional[int]` argument: `None` and
`0` are falsy, so both select the default; any other (non-negative) count is
returned unchanged. -/
def pyOr (x : Option Nat) (d : Nat) : Nat :=
  match x with
  | none => d
  | some n => if n = 0 then d else n

/-- Filename test of `glob.glob(os.path.join(reports_dir, "*.html"))`: the `*`
matches any (possibly empty) sequence, so a basename matches iff it ends in
`.html`. -/
def matchesHtmlGlob (f : FileEntry) : Bool :=
  ".html".toList.isSuffixOf f.name.toList

/-- Filename test of `glob.glob(os.path.join(logs_dir, "test_execution_*.log"))`: the basename starts with `test_execution_` and what follows that
fixed part ends in `.log`. -/
def matchesLogGlob (f : FileEntry) : Bool :=
  "test_execution_".toList.isPrefixOf f.name.toList &&
    ".log".toList.isSuffixOf (f.name.toList.drop "test_execution_".toList.length)

/-- Insert `a` into a descending-by-`key` list: `a` goes in front of the
first element whose key is less than or equal to its own, so an element is
placed before the earlier-inserted elements of equal key. -/
def insertDescBy {α : Type} (key : α → Nat) (a : α) : List α → List α
  | [] => [a]
  | b :: t => if key b ≤ key a then a :: b :: t else b :: insertDescBy key a t

/-- Model of `list.sort(key=..., reverse=True)`: CPython sorting is stable, so the
result is the unique descending-by-key reordering in which equal-key
elements keep their original relative order.  This insertion sort computes
exactly that list: processing from the right, each element ends up before
all equal-key elements that followed it in the input (see
`insertDescBy`), and `sortDescBy_sorted` below checks the ordering. -/
def sortDescBy {α : Type} (key : α → Nat) : List α → List α
  | [] => []
  | a :: t => insertDescBy key a (sortDescBy key t)

/-- Embeds `report_files.sort(key=os.path.getmtime, reverse=True)`. -/
def sortByMtimeDesc (l : List FileEntry) : List FileEntry :=
  sortDescBy FileEntry.mtime l

/-- Embeds `screenshot_folders.sort(key=os.path.getctime, reverse=True)`. -/
def sortByCtimeDesc (l : List Folder) : List Folder :=
  sortDescBy Folder.ctime l

/-- Python substring test `needle in hay` on lists of characters. -/
def containsSub : List Char → List Char → Bool
  | needle, [] => needle.isEmpty
  | needle, c :: t => needle.isPrefixOf (c :: t) || containsSub needle t

/-- Model of `s.split(sep, 1)` restricted to its use here: `some (before, after)` for
the first occurrence; `none` when the separator is absent (in which case the
Python subscript `[1]` raises `IndexError`). -/
def splitFirstOn (sep : Char) : List Char → Option (List Char × List Char)
  | [] => none
  | c :: t =>
    if c = sep then some ([], t)
    else (splitFirstOn sep t).map (fun p => (c :: p.1, p.2))

/-- The characters strictly before the last occurrence of `sep`, or `none`
when `sep` is absent.  `l.rsplit(sep, 1)[0]` is `(beforeLast sep l).getD l`. -/
def beforeLast (sep : Char) : List Char → Option (List Char)
  | [] => none
  | c :: t =>
    match beforeLast sep t with
    | some r => some (c :: r)
    | none => if c = sep then some [] else none

/-- Embeds `filename.split("_", 1)[1].rsplit(".", 1)[0]` — the timestamp embedded in
a report basename: everything after the first `_`, with everything from the
last `.` on stripped.  `none` models the `IndexError` raised when the
basename has no `_`. -/
def extractToken (filename : String) : Option String :=
  match splitFirstOn '_' filename.toList with
  | none => none
  | some (_, rest) => some (String.mk ((beforeLast '.' rest).getD rest))

/-- Days since 1970-01-01 to a civil `(year, month, day)` triple — the
standard era/day-of-era conversion underlying `datetime.fromtimestamp`. -/
def civilFromDays (z : Nat) : Nat × Nat × Nat :=
  let zd := z + 719468
  let era := zd / 146097
  let doe := zd % 146097
  let yoe := (doe - doe / 1460 + doe / 36524 - doe / 146097) / 365
  let y := yoe + era * 400
  let doy := doe - (365 * yoe + yoe / 4 - yoe / 100)
  let mp := (5 * doy + 2) / 153
  let d := doy - (153 * mp + 2) / 5 + 1
  let m := if mp < 10 then mp + 3 else mp - 9
  (if m ≤ 2 then y + 1 else y, m, d)

/-- Zero-pad to two digits, as `strftime` does for `%m %d %H %M %S`. -/
def pad2 (n : Nat) : String :=
  if n < 10 then "0" ++ toString n else toString n

/-- Zero-pad to four digits, as `strftime` does for `%Y`. -/
def pad4 (n : Nat) : String :=
  if n < 10 then "000" ++ toString n
  else if n < 100 then "00" ++ toString n
  else if n < 1000 then "0" ++ toString n
  else toString n

/-- Embeds `datetime.fromtimestamp(mtime).strftime("%Y-%m-%d_%H-%M-%S")` for a
whole-second epoch timestamp, with a UTC local timezone. -/
def strftime_token (t : Nat) : String :=
  let days := t / 86400
  let rem := t % 86400
  match civilFromDays days with
  | (y, m, d) =>
    pad4 y ++ "-" ++ pad2 m ++ "-" ++ pad2 d ++ "_" ++
      pad2 (rem / 3600) ++ "-" ++ pad2 (rem % 3600 / 60) ++ "-" ++ pad2 (rem % 60)

/-- The timestamp token derived for one report inside
`_cleanup_screenshots_match_reports`: the token parsed from the basename, or
— when parsing raises (`IndexError`/`ValueError`) — the fallback token
formatted from the mtime. -/
def report_token (f : FileEntry) : String :=
  match extractToken f.name with
  | some ts => ts
  | none => strftime_token f.mtime

/-- The victims of `cleanup_reports`: all `*.html` files, stably sorted
newest first, beyond index `k - 1`.  The code guards the loop with
`if len(report_files) > max_reports_to_keep`; when the guard fails no entry
is a victim. -/
def report_victims (k : Nat) (files : List FileEntry) : List FileEntry :=
  let sorted := sortByMtimeDesc (files.filter matchesHtmlGlob)
  if k < sorted.length then sorted.drop k else []

/-- The victims of `cleanup_logs`, same shape over `test_execution_*.log`. -/
def log_victims (k : Nat) (files : List FileEntry) : List FileEntry :=
  let sorted := sortByMtimeDesc (files.filter matchesLogGlob)
  if k < sorted.length then sorted.drop k else []

/-- The victims of `_cleanup_screenshots_last_execution`: folders sorted by
ctime newest first, beyond index `k - 1`. -/
def screenshot_victims (k : Nat) (folders : List Folder) : List Folder :=
  let sorted := sortByCtimeDesc folders
  if k < sorted.length then sorted.drop k else []

/-- Embeds `CleanupUtils.cleanup_reports`.  `fail` is the deletion-failure oracle
(`fail name = true` models `os.remove` raising for that path). -/
def cleanup_reports (fail : String → Bool) (max_reports : Option Nat) (fs : FS) :
    FS × List LogMsg :=
  let k := pyOr max_reports max_reports_to_keep
  match fs.reportsDir with
  | none => (fs, [⟨.info, "Reports directory does not exist"⟩])
  | some files =>
    let victims := report_victims k files
    let deleted := (victims.filter (fun f => !(fail f.name))).map FileEntry.name
    ({ fs with reportsDir := some (files.filter (fun f => decide (f.name ∉ deleted))) },
      ⟨.info, "Cleaning up reports, keeping " ++ toString k ++ " most recent"⟩ ::
        victims.map (fun f =>
          if fail f.name then ⟨.error, "Failed to delete report " ++ f.name⟩
          else ⟨.info, "Deleted old report: " ++ f.name⟩))

/-- Embeds `CleanupUtils.cleanup_logs` — identical algorithm over
`test_execution_*.log` files in the logs directory (the default count is the
reports default, per the source comment). -/
def cleanup_logs (fail : String → Bool) (max_logs : Option Nat) (fs : FS) :
    FS × List LogMsg :=
  let k := pyOr max_logs max_reports_to_keep
  match fs.logsDir with
  | none => (fs, [⟨.info, "Logs directory does not exist"⟩])
  | some files =>
    let victims := log_victims k files
    let deleted := (victims.filter (fun f => !(fail f.name))).map FileEntry.name
    ({ fs with logsDir := some (files.filter (fun f => decide (f.name ∉ deleted))) },
      ⟨.info, "Cleaning up logs, keeping " ++ toString k ++ " most recent"⟩ ::
        victims.map (fun f =>
          if fail f.name then ⟨.error, "Failed to delete log " ++ f.name⟩
          else ⟨.info, "Deleted old log: " ++ f.name⟩))

/-- The token list built by `_cleanup_screenshots_match_reports`: tokens of
the `n` most recent `*.html` report files.  `glob.glob` on a missing reports
directory returns the empty list, hence the `Option.getD []`. -/
def report_tokens (n : Nat) (fs : FS) : List String :=
  let report_files := (fs.reportsDir.getD []).filter matchesHtmlGlob
  ((sortByMtimeDesc report_files).take n).map report_token

/-- The retention test of `_cleanup_screenshots_match_reports`: a folder is
kept iff some derived token occurs in its name as a substring
(`if timestamp in folder`). -/
def keep_folder (tokens : List String) (d : Folder) : Bool :=
  tokens.any (fun ts => containsSub ts.toList d.name.toList)

/-- Embeds `CleanupUtils._cleanup_screenshots_match_reports`.  `folders` is the
listing of the screenshots directory (the dispatcher established that it
exists). -/
def cleanup_screenshots_match_reports (fail : String → Bool)
    (reports_to_match : Option Nat) (fs : FS) (folders : List Folder) :
    FS × List LogMsg :=
  let n := pyOr reports_to_match max_reports_to_keep
  let tokens := report_tokens n fs
  let victims := folders.filter (fun d => !(keep_folder tokens d))
  let deleted := (victims.filter (fun d => !(fail d.name))).map Folder.name
  ({ fs with screenshotsDir := some (folders.filter (fun d => decide (d.name ∉ deleted))) },
    ⟨.info, "Cleaning up screenshots to match " ++ toString n ++ " recent reports"⟩ ::
      victims.map (fun d =>
        if fail d.name then ⟨.error, "Failed to delete screenshot folder " ++ d.name⟩
        else ⟨.info, "Deleted screenshot folder: " ++ d.name⟩))

/-- Embeds `CleanupUtils._cleanup_screenshots_last_execution`. -/
def cleanup_screenshots_last_execution (fail : String → Bool)
    (max_screenshots : Option Nat) (fs : FS) (folders : List Folder) :
    FS × List LogMsg :=
  let k := pyOr max_screenshots max_screenshots_to_keep
  let victims := screenshot_victims k folders
  let deleted := (victims.filter (fun d => !(fail d.name))).map Folder.name
  ({ fs with screenshotsDir := some (folders.filter (fun d => decide (d.name ∉ deleted))) },
    ⟨.info, "Cleaning up screenshots, keeping " ++ toString k ++ " most recent folders"⟩ ::
      victims.map (fun d =>
        if fail d.name then ⟨.error, "Failed to delete screenshot folder " ++ d.name⟩
        else ⟨.info, "Deleted old screenshot folder: " ++ d.name⟩))

/-- Embeds `CleanupUtils.cleanup_screenshots`: missing-directory check, then
dispatch on the strategy string; an unrecognized strategy only logs an
error. -/
def cleanup_screenshots (fail : String → Bool) (strategy : String)
    (max_screenshots reports_to_match : Option Nat) (fs : FS) :
    FS × List LogMsg :=
  match fs.screenshotsDir with
  | none => (fs, [⟨.info, "Screenshots directory does not exist"⟩])
  | some folders =>
    if strategy = "match_reports" then
      cleanup_screenshots_match_reports fail reports_to_match fs folders
    else if strategy = "last_execution" then
      cleanup_screenshots_last_execution fail max_screenshots fs folders
    else (fs, [⟨.error, "Unknown screenshot cleanup strategy: " ++ strategy⟩])

/-! ## Shared lemmas -/

/-- Inserting is, up to permutation, consing. -/
lemma insertDescBy_perm {α : Type} (key : α → Nat) (a : α) (l : List α) :
    (insertDescBy key a l).Perm (a :: l) := by
  induction l with
  | nil => rfl
  | cons b t ih =>
    rw [insertDescBy]
    by_cases h : key b ≤ key a
    · rw [if_pos h]
    · rw [if_neg h]
      exact (ih.cons b).trans (List.Perm.swap a b t)

/-- The sort is a permutation of its input. -/
lemma sortDescBy_perm {α : Type} (key : α → Nat) (l : List α) :
    (sortDescBy key l).Perm l := by
  induction l with
  | nil => rfl
  | cons a t ih =>
    exact (insertDescBy_perm key a (sortDescBy key t)).trans (ih.cons a)

/-- Inserting into a descending list keeps it descending. -/
lemma insertDescBy_sorted {α : Type} (key : α → Nat) (a : α) (l : List α)
    (h : l.Pairwise (fun x y => key y ≤ key x)) :
    (insertDescBy key a l).Pairwise (fun x y => key y ≤ key x) := by
  induction l with
  | nil => simp [insertDescBy]
  | cons b t ih =>
    rcases List.pairwise_cons.mp h with ⟨hb, ht⟩
    rw [insertDescBy]
    by_cases hba : key b ≤ key a
    · rw [if_pos hba]
      refine List.pairwise_cons.mpr ⟨?_, h⟩
      intro x hx
      rcases List.mem_cons.mp hx with rfl | hxt
      · exact hba
      · exact Nat.le_trans (hb x hxt) hba
    · rw [if_neg hba]
      refine List.pairwise_cons.mpr ⟨?_, ih ht⟩
      intro x hx
      rcases List.mem_cons.mp ((insertDescBy_perm key a t).mem_iff.mp hx) with rfl | hxt
      · exact Nat.le_of_lt (Nat.lt_of_not_le hba)
      · exact hb x hxt

/-- The sort really sorts: keys are non-increasing along the result. -/
lemma sortDescBy_sorted {α : Type} (key : α → Nat) (l : List α) :
    (sortDescBy key l).Pairwise (fun x y => key y ≤ key x) := by
  induction l with
  | nil => exact List.Pairwise.nil
  | cons a t ih => exact insertDescBy_sorted key a (sortDescBy key t) ih

/-- The sort used for reports is a permutation of its input. -/
lemma sortByMtimeDesc_perm (l : List FileEntry) : (sortByMtimeDesc l).Perm l :=
  sortDescBy_perm FileEntry.mtime l

/-- The sort used for screenshot folders is a permutation of its input. -/
lemma sortByCtimeDesc_perm (l : List Folder) : (sortByCtimeDesc l).Perm l :=
  sortDescBy_perm Folder.ctime l

/-- The `if len > k` guard around the deletion loop is equivalent to
unconditionally dropping the first `k` sorted entries. -/
lemma report_victims_eq (k : Nat) (files : List FileEntry) :
    report_victims k files = (sortByMtimeDesc (files.filter matchesHtmlGlob)).drop k := by
  unfold report_victims
  by_cases h : k < (sortByMtimeDesc (files.filter matchesHtmlGlob)).length
  · simp [h]
  · simp [h, List.drop_eq_nil_of_le (Nat.le_of_not_lt h)]

lemma log_victims_eq (k : Nat) (files : List FileEntry) :
    log_victims k files = (sortByMtimeDesc (files.filter matchesLogGlob)).drop k := by
  unfold log_victims
  by_cases h : k < (sortByMtimeDesc (files.filter matchesLogGlob)).length
  · simp [h]
  · simp [h, List.drop_eq_nil_of_le (Nat.le_of_not_lt h)]

lemma screenshot_victims_eq (k : Nat) (folders : List Folder) :
    screenshot_victims k folders = (sortByCtimeDesc folders).drop k := by
  unfold screenshot_victims
  by_cases h : k < (sortByCtimeDesc folders).length
  · simp [h]
  · simp [h, List.drop_eq_nil_of_le (Nat.le_of_not_lt h)]

/-- A positive count passed explicitly survives the Python `or` default. -/
lemma pyOr_pos (k d : Nat) (hk : 0 < k) : pyOr (some k) d = k := by
  simp [pyOr, Nat.pos_iff_ne_zero.mp hk]

/-- Core retention fact: removing (by key) the entries beyond index `k` of a
permutation `sorted` of `l` leaves, up to permutation, exactly the first `k`
entries of `sorted`, provided keys are unique. -/
lemma retention_perm {α : Type} (key : α → String) (l sorted : List α) (k : Nat)
    (hperm : sorted.Perm l) (hnodup : (l.map key).Nodup) :
    (l.filter (fun a => decide (key a ∉ (sorted.drop k).map key))).Perm
      (sorted.take k) := by
  have h1 : (l.filter (fun a => decide (key a ∉ (sorted.drop k).map key))).Perm
      (sorted.filter (fun a => decide (key a ∉ (sorted.drop k).map key))) :=
    (hperm.symm).filter _
  have hsplit : sorted.filter (fun a => decide (key a ∉ (sorted.drop k).map key))
      = (sorted.take k).filter (fun a => decide (key a ∉ (sorted.drop k).map key))
        ++ (sorted.drop k).filter (fun a => decide (key a ∉ (sorted.drop k).map key)) := by
    rw [← List.filter_append, List.take_append_drop]
  have hdrop : (sorted.drop k).filter
      (fun a => decide (key a ∉ (sorted.drop k).map key)) = [] := by
    apply List.filter_eq_nil_iff.mpr
    intro a ha
    simp only [decide_eq_true_eq, not_not]
    exact List.mem_map_of_mem key ha
  have hnodup_sorted : (sorted.map key).Nodup := ((hperm.map key).nodup_iff).mpr hnodup
  have htake : (sorted.take k).filter
      (fun a => decide (key a ∉ (sorted.drop k).map key)) = sorted.take k := by
    apply List.filter_eq_self.mpr
    intro a ha
    simp only [decide_eq_true_eq]
    rw [← List.take_append_drop k sorted, List.map_append] at hnodup_sorted
    rcases List.nodup_append.mp hnodup_sorted with ⟨-, -, hdisj⟩
    exact fun hmem => hdisj (List.mem_map_of_mem key ha) hmem
  calc (l.filter _).Perm (sorted.filter _) := h1
    _ = _ := by rw [hsplit, hdrop, htake, List.append_nil]

/-- Without any uniqueness assumption, at most `k` entries survive the
key-based removal of everything beyond index `k`. -/
lemma retention_length_le {α : Type} (key : α → String) (l sorted : List α) (k : Nat)
    (hperm : sorted.Perm l) :
    (l.filter (fun a => decide (key a ∉ (sorted.drop k).map key))).length ≤ k := by
  have h1 : (l.filter (fun a => decide (key a ∉ (sorted.drop k).map key))).length
      = (sorted.filter (fun a => decide (key a ∉ (sorted.drop k).map key))).length :=
    ((hperm.symm).filter _).length_eq
  have hsplit : sorted.filter (fun a => decide (key a ∉ (sorted.drop k).map key))
      = (sorted.take k).filter (fun a => decide (key a ∉ (sorted.drop k).map key))
        ++ (sorted.drop k).filter (fun a => decide (key a ∉ (sorted.drop k).map key)) := by
    rw [← List.filter_append, List.take_append_drop]
  have hdrop : (sorted.drop k).filter
      (fun a => decide (key a ∉ (sorted.drop k).map key)) = [] := by
    apply List.filter_eq_nil_iff.mpr
    intro a ha
    simp only [decide_eq_true_eq, not_not]
    exact List.mem_map_of_mem key ha
  rw [h1, hsplit, hdrop, List.append_nil]
  calc ((sorted.take k).filter _).length
      ≤ (sorted.take k).length := (List.filter_sublist _).length_le
    _ ≤ k := List.length_take_le k sorted

/-- Shape of the `cleanup_reports` result when the directory exists and no
deletion fails: the listing keeps exactly the entries whose name is not the
name of a sorted-out victim. -/
lemma cleanup_reports_result_some (mk : Option Nat) (fs : FS) (files : List FileEntry)
    (h : fs.reportsDir = some files) :
    (cleanup_reports (fun _ => false) mk fs).1
      = { fs with reportsDir := some (files.filter (fun f =>
          decide (f.name ∉ ((sortByMtimeDesc (files.filter matchesHtmlGlob)).drop
            (pyOr mk max_reports_to_keep)).map FileEntry.name))) } := by
  simp [cleanup_reports, h, report_victims_eq]

lemma cleanup_logs_result_some (mk : Option Nat) (fs : FS) (files : List FileEntry)
    (h : fs.logsDir = some files) :
    (cleanup_logs (fun _ => false) mk fs).1
      = { fs with logsDir := some (files.filter (fun f =>
          decide (f.name ∉ ((sortByMtimeDesc (files.filter matchesLogGlob)).drop
            (pyOr mk max_reports_to_keep)).map FileEntry.name))) } := by
  simp [cleanup_logs, h, log_victims_eq]

/-- Shape of the `last_execution` strategy result with no deletion failure. -/
lemma cleanup_screenshots_last_result (ms rm : Option Nat) (fs : FS)
    (folders : List Folder) (h : fs.screenshotsDir = some folders) :
    (cleanup_screenshots (fun _ => false) "last_execution" ms rm fs).1
      = { fs with screenshotsDir := some (folders.filter (fun d =>
          decide (d.name ∉ ((sortByCtimeDesc folders).drop
            (pyOr ms max_screenshots_to_keep)).map Folder.name))) } := by
  simp [cleanup_screenshots, h, cleanup_screenshots_last_execution, screenshot_victims_eq]

/-- Shape of the `match_reports` strategy result with no deletion failure. -/
lemma cleanup_screenshots_match_result (ms rm : Option Nat) (fs : FS)
    (folders : List Folder) (h : fs.screenshotsDir = some folders) :
    (cleanup_screenshots (fun _ => false) "match_reports" ms rm fs).1
      = { fs with screenshotsDir := some (folders.filter (fun d =>
          decide (d.name ∉
            ((folders.filter (fun x =>
                !(keep_folder (report_tokens (pyOr rm max_reports_to_keep) fs) x))).map
              Folder.name)))) } := by
  simp [cleanup_screenshots, h, cleanup_screenshots_match_reports]

/-- With unique folder names and no deletion failure, `match_reports` keeps
exactly the folders passing the retention test. -/
lemma cleanup_screenshots_match_result_nodup (ms rm : Option Nat) (fs : FS)
    (folders : List Folder) (h : fs.screenshotsDir = some folders)
    (hnodup : (folders.map Folder.name).Nodup) :
    (cleanup_screenshots (fun _ => false) "match_reports" ms rm fs).1
      = { fs with screenshotsDir := some (folders.filter
          (keep_folder (report_tokens (pyOr rm max_reports_to_keep) fs))) } := by
  rw [cleanup_screenshots_match_result ms rm fs folders h]
  have heq : folders.filter (fun d =>
      decide (d.name ∉
        ((folders.filter (fun x =>
            !(keep_folder (report_tokens (pyOr rm max_reports_to_keep) fs) x))).map
          Folder.name)))
      = folders.filter (keep_folder (report_tokens (pyOr rm max_reports_to_keep) fs)) := by
    apply List.filter_congr
    intro d hd
    by_cases hk : keep_folder (report_tokens (pyOr rm max_reports_to_keep) fs) d = true
    · rw [hk]
      simp only [decide_eq_true_eq]
      intro hmem
      rcases List.mem_map.mp hmem with ⟨v, hv, hvname⟩
      rcases List.mem_filter.mp hv with ⟨hvin, hvkeep⟩
      have : v = d := List.inj_on_of_nodup_map hnodup hvin hd hvname
      rw [this] at hvkeep
      rw [hk] at hvkeep
      simp at hvkeep
    · have hk' : keep_folder (report_tokens (pyOr rm max_reports_to_keep) fs) d = false :=
        Bool.eq_false_iff.mpr hk
      rw [hk']
      have : d.name ∈ (folders.filter (fun x =>
          !(keep_folder (report_tokens (pyOr rm max_reports_to_keep) fs) x))).map Folder.name :=
        List.mem_map_of_mem _ (List.mem_filter.mpr ⟨hd, by rw [hk']; rfl⟩)
      simp [this]
  rw [heq]

/-- A basename with no `_` makes the split raise, so no token is parsed. -/
lemma splitFirstOn_eq_none (sep : Char) (l : List Char) (h : sep ∉ l) :
    splitFirstOn sep l = none := by
  induction l with
  | nil => rfl
  | cons c t ih =>
    rw [List.mem_cons, not_or] at h
    rw [splitFirstOn, if_neg (fun hc => h.1 hc.symm), ih h.2]
    rfl

/-! ## Claim theorems -/

/-- C1: for a reports directory holding the `*.html` files of `files` and a
positive `keep_count` `k`, after `cleanup_reports` (no deletion failing)
exactly `min M k` html files remain, and they are — up to listing order —
the first `k` entries of the stable descending-mtime sort, i.e. the `k` most
recently modified files with ties broken by listing order. -/
theorem C1_cleanup_reports_bounded_retention (fs : FS) (files : List FileEntry)
    (k : Nat) (hdir : fs.reportsDir = some files) (hk : 0 < k)
    (hnodup : (files.map FileEntry.name).Nodup) :
    ∃ files1,
      (cleanup_reports (fun _ => false) (some k) fs).1.reportsDir = some files1 ∧
      (files1.filter matchesHtmlGlob).Perm
        ((sortByMtimeDesc (files.filter matchesHtmlGlob)).take k) ∧
      (files1.filter matchesHtmlGlob).length
        = min (files.filter matchesHtmlGlob).length k := by
  rw [cleanup_reports_result_some (some k) fs files hdir, pyOr_pos k max_reports_to_keep hk]
  refine ⟨_, rfl, ?_⟩
  have h1 : (files.filter (fun f =>
        decide (f.name ∉ ((sortByMtimeDesc (files.filter matchesHtmlGlob)).drop k).map
          FileEntry.name))).filter matchesHtmlGlob
      = (files.filter matchesHtmlGlob).filter (fun f =>
        decide (f.name ∉ ((sortByMtimeDesc (files.filter matchesHtmlGlob)).drop k).map
          FileEntry.name)) := by
    rw [List.filter_filter, List.filter_filter]
    exact List.filter_congr (fun a _ => Bool.and_comm _ _)
  have hnodup' : ((files.filter matchesHtmlGlob).map FileEntry.name).Nodup :=
    hnodup.sublist ((List.filter_sublist files).map FileEntry.name)
  have hperm := retention_perm FileEntry.name (files.filter matchesHtmlGlob)
    (sortByMtimeDesc (files.filter matchesHtmlGlob)) k (sortByMtimeDesc_perm _) hnodup'
  rw [h1]
  refine ⟨hperm, ?_⟩
  rw [hperm.length_eq, List.length_take, Nat.min_comm,
    (sortByMtimeDesc_perm (files.filter matchesHtmlGlob)).length_eq]

/-- C1 witness: three reports, `keep_count = 2`. -/
theorem C1_witness :
    ∃ files1,
      (cleanup_reports (fun _ => false) (some 2)
          ⟨some [⟨"a_1.html", 10⟩, ⟨"b_2.html", 20⟩, ⟨"c_3.html", 30⟩],
            none, none⟩).1.reportsDir = some files1 ∧
      (files1.filter matchesHtmlGlob).Perm
        ((sortByMtimeDesc (List.filter matchesHtmlGlob
            [⟨"a_1.html", 10⟩, ⟨"b_2.html", 20⟩, ⟨"c_3.html", 30⟩])).take 2) ∧
      (files1.filter matchesHtmlGlob).length
        = min (List.filter matchesHtmlGlob
            [⟨"a_1.html", 10⟩, ⟨"b_2.html", 20⟩, ⟨"c_3.html", 30⟩]).length 2 :=
  C1_cleanup_reports_bounded_retention _ _ 2 rfl (by decide) (by decide)

/-- C2: under the `match_reports` strategy with a positive window `n` and no
deletion failure, a screenshot folder survives iff its name contains, as a
substring, the token derived (filename-split or mtime fallback) from at
least one of the `n` most recently modified report files; every other
folder — whatever its ctime — is deleted. -/
theorem C2_match_reports_retention_iff (fs : FS) (folders : List Folder) (n : Nat)
    (hn : 0 < n) (hscr : fs.screenshotsDir = some folders)
    (hnodup : (folders.map Folder.name).Nodup) :
    ∃ folders1,
      (cleanup_screenshots (fun _ => false) "match_reports" none (some n)
          fs).1.screenshotsDir = some folders1 ∧
      (∀ d ∈ folders1, d ∈ folders) ∧
      ∀ d ∈ folders, (d ∈ folders1 ↔
        ∃ ts ∈ report_tokens n fs, containsSub ts.toList d.name.toList = true) := by
  rw [cleanup_screenshots_match_result_nodup none (some n) fs folders hscr hnodup,
    pyOr_pos n max_reports_to_keep hn]
  refine ⟨_, rfl, fun d hd => (List.mem_filter.mp hd).1, fun d hd => ?_⟩
  simp only [List.mem_filter, hd, true_and, keep_folder, List.any_eq_true]

/-- C2 witness: reports at mtimes 30 > 20 > 10 with embedded tokens
`T1 T2 T3`, window 2: a folder containing `T1` survives, a folder
containing only `T3` is among those with no matching token. -/
theorem C2_witness :
    ∃ folders1,
      (cleanup_screenshots (fun _ => false) "match_reports" none (some 2)
          ⟨some [⟨"r_T1.html", 30⟩, ⟨"r_T2.html", 20⟩, ⟨"r_T3.html", 10⟩], none,
            some [⟨"run_T1", 100⟩, ⟨"run_T3", 300⟩]⟩).1.screenshotsDir = some folders1 ∧
      (∀ d ∈ folders1, d ∈ [⟨"run_T1", 100⟩, ⟨"run_T3", 300⟩]) ∧
      ∀ d ∈ ([⟨"run_T1", 100⟩, ⟨"run_T3", 300⟩] : List Folder),
        (d ∈ folders1 ↔
          ∃ ts ∈ report_tokens 2
            ⟨some [⟨"r_T1.html", 30⟩, ⟨"r_T2.html", 20⟩, ⟨"r_T3.html", 10⟩], none,
              some [⟨"run_T1", 100⟩, ⟨"run_T3", 300⟩]⟩,
            containsSub ts.toList d.name.toList = true) :=
  C2_match_reports_retention_iff _ _ 2 (by decide) rfl (by decide)

/-- C3: under the `last_execution` strategy with positive cap `K`, unique
folder names and pairwise distinct creation times, exactly the
`min count K` newest-created folders remain and every folder beyond index
`K - 1` of the descending-ctime order is gone. -/
theorem C3_last_execution_retention (fs : FS) (folders : List Folder) (K : Nat)
    (hK : 0 < K) (hscr : fs.screenshotsDir = some folders)
    (hctime : (folders.map Folder.ctime).Nodup)
    (hnodup : (folders.map Folder.name).Nodup) :
    ∃ folders1,
      (cleanup_screenshots (fun _ => false) "last_execution" (some K) none
          fs).1.screenshotsDir = some folders1 ∧
      folders1.Perm ((sortByCtimeDesc folders).take K) ∧
      folders1.length = min folders.length K ∧
      ∀ d ∈ (sortByCtimeDesc folders).drop K, d ∉ folders1 := by
  rw [cleanup_screenshots_last_result (some K) none fs folders hscr,
    pyOr_pos K max_screenshots_to_keep hK]
  have hperm := retention_perm Folder.name folders (sortByCtimeDesc folders) K
    (sortByCtimeDesc_perm folders) hnodup
  refine ⟨_, rfl, hperm, ?_, ?_⟩
  · rw [hperm.length_eq, List.length_take, Nat.min_comm,
      (sortByCtimeDesc_perm folders).length_eq]
  · intro d hd hmem
    have hp := (List.mem_filter.mp hmem).2
    simp only [decide_eq_true_eq] at hp
    exact hp (List.mem_map_of_mem Folder.name hd)

/-- C3 witness: three folders with distinct ctimes, cap 2. -/
theorem C3_witness :
    ∃ folders1,
      (cleanup_screenshots (fun _ => false) "last_execution" (some 2) none
          ⟨none, none, some [⟨"f1", 1⟩, ⟨"f2", 2⟩, ⟨"f3", 3⟩]⟩).1.screenshotsDir
        = some folders1 ∧
      folders1.Perm ((sortByCtimeDesc [⟨"f1", 1⟩, ⟨"f2", 2⟩, ⟨"f3", 3⟩]).take 2) ∧
      folders1.length = min ([⟨"f1", 1⟩, ⟨"f2", 2⟩, ⟨"f3", 3⟩] : List Folder).length 2 ∧
      ∀ d ∈ (sortByCtimeDesc [⟨"f1", 1⟩, ⟨"f2", 2⟩, ⟨"f3", 3⟩]).drop 2, d ∉ folders1 :=
  C3_last_execution_retention _ _ 2 (by decide) rfl (by decide) (by decide)

/-- C4 counterexample: the claim predicts that `max_reports = 0` deletes
every html report, but Python's `max_reports or default` treats `0` as
falsy: with one report file and count `0` the operation keeps the file
(the configured default 5 is substituted), so a non-empty html listing
survives. -/
theorem C4_counterexample :
    (cleanup_reports (fun _ => false) (some 0)
        ⟨some [⟨"playwright_report_old.html", 100⟩], none, none⟩).1.reportsDir
      = some [⟨"playwright_report_old.html", 100⟩] ∧
    ((cleanup_reports (fun _ => false) (some 0)
        ⟨some [⟨"playwright_report_old.html", 100⟩], none, none⟩).1.reportsDir.getD
          []).filter matchesHtmlGlob ≠ [] := by
  refine ⟨?_, ?_⟩ <;> decide

/-- C4 amended: a positive retention count `N` is used as given by all three
count parameters, but a count of `0` is falsy under the Python `or` default
idiom and is therefore replaced by the configured default — passing `0` is
indistinguishable from passing no count at all, for each of the three
operations. -/
theorem C4_zero_count_uses_default (fail : String → Bool) (fs : FS) (k d : Nat) :
    pyOr (some k) d = (if k = 0 then d else k) ∧
    pyOr none d = d ∧
    cleanup_reports fail (some 0) fs = cleanup_reports fail none fs ∧
    cleanup_logs fail (some 0) fs = cleanup_logs fail none fs ∧
    cleanup_screenshots fail "last_execution" (some 0) none fs
      = cleanup_screenshots fail "last_execution" none none fs ∧
    cleanup_screenshots fail "match_reports" none (some 0) fs
      = cleanup_screenshots fail "match_reports" none none fs :=
  ⟨rfl, rfl, rfl, rfl, rfl, rfl⟩

/-- After one retention pass at most `k` matching entries survive, so a
second sorted pass has nothing beyond index `k - 1` to drop. -/
lemma second_victims_nil (g : FileEntry → Bool) (files : List FileEntry) (k : Nat) :
    (sortByMtimeDesc ((files.filter (fun f =>
        decide (f.name ∉ ((sortByMtimeDesc (files.filter g)).drop k).map
          FileEntry.name))).filter g)).drop k = [] := by
  apply List.drop_eq_nil_of_le
  rw [(sortByMtimeDesc_perm _).length_eq]
  have hcomm : (files.filter (fun f =>
      decide (f.name ∉ ((sortByMtimeDesc (files.filter g)).drop k).map
        FileEntry.name))).filter g
      = (files.filter g).filter (fun f =>
        decide (f.name ∉ ((sortByMtimeDesc (files.filter g)).drop k).map
          FileEntry.name)) := by
    rw [List.filter_filter, List.filter_filter]
    exact List.filter_congr (fun a _ => Bool.and_comm _ _)
  rw [hcomm]
  exact retention_length_le FileEntry.name (files.filter g) _ k (sortByMtimeDesc_perm _)

/-- Second pass of `cleanup_reports` deletes nothing. -/
lemma cleanup_reports_twice (mk : Option Nat) (fs : FS) :
    (cleanup_reports (fun _ => false) mk ((cleanup_reports (fun _ => false) mk fs).1)).1
      = (cleanup_reports (fun _ => false) mk fs).1 := by
  cases h : fs.reportsDir with
  | none =>
    have h1 : (cleanup_reports (fun _ => false) mk fs).1 = fs := by
      simp [cleanup_reports, h]
    rw [h1]
    exact h1
  | some files =>
    rw [cleanup_reports_result_some mk fs files h,
      cleanup_reports_result_some mk _ _ rfl,
      second_victims_nil matchesHtmlGlob files (pyOr mk max_reports_to_keep)]
    simp

/-- Second pass of `cleanup_logs` deletes nothing. -/
lemma cleanup_logs_twice (mk : Option Nat) (fs : FS) :
    (cleanup_logs (fun _ => false) mk ((cleanup_logs (fun _ => false) mk fs).1)).1
      = (cleanup_logs (fun _ => false) mk fs).1 := by
  cases h : fs.logsDir with
  | none =>
    have h1 : (cleanup_logs (fun _ => false) mk fs).1 = fs := by
      simp [cleanup_logs, h]
    rw [h1]
    exact h1
  | some files =>
    rw [cleanup_logs_result_some mk fs files h,
      cleanup_logs_result_some mk _ _ rfl,
      second_victims_nil matchesLogGlob files (pyOr mk max_reports_to_keep)]
    simp

/-- C5: with no intervening filesystem change and no deletion failure,
running report (resp. log) cleanup twice with the same `keep_count` leaves
the state of the first run unchanged — the second run deletes nothing. -/
theorem C5_report_log_cleanup_idempotent (mk : Option Nat) (fs : FS) :
    (cleanup_reports (fun _ => false) mk ((cleanup_reports (fun _ => false) mk fs).1)).1
        = (cleanup_reports (fun _ => false) mk fs).1 ∧
    (cleanup_logs (fun _ => false) mk ((cleanup_logs (fun _ => false) mk fs).1)).1
        = (cleanup_logs (fun _ => false) mk fs).1 :=
  ⟨cleanup_reports_twice mk fs, cleanup_logs_twice mk fs⟩

/-- Result of `cleanup_reports` under an arbitrary failure oracle: survivors are the
entries whose name is not among the successfully deleted victims. -/
lemma cleanup_reports_result_fail (fail : String → Bool) (mk : Option Nat) (fs : FS)
    (files : List FileEntry) (h : fs.reportsDir = some files) :
    (cleanup_reports fail mk fs).1
      = { fs with reportsDir := some (files.filter (fun f =>
          decide (f.name ∉ (((report_victims (pyOr mk max_reports_to_keep) files).filter
            (fun v => !(fail v.name))).map FileEntry.name)))) } := by
  simp [cleanup_reports, h]

lemma cleanup_logs_result_fail (fail : String → Bool) (mk : Option Nat) (fs : FS)
    (files : List FileEntry) (h : fs.logsDir = some files) :
    (cleanup_logs fail mk fs).1
      = { fs with logsDir := some (files.filter (fun f =>
          decide (f.name ∉ (((log_victims (pyOr mk max_reports_to_keep) files).filter
            (fun v => !(fail v.name))).map FileEntry.name)))) } := by
  simp [cleanup_logs, h]

lemma cleanup_screenshots_match_result_fail (fail : String → Bool) (ms rm : Option Nat)
    (fs : FS) (folders : List Folder) (h : fs.screenshotsDir = some folders) :
    (cleanup_screenshots fail "match_reports" ms rm fs).1
      = { fs with screenshotsDir := some (folders.filter (fun d =>
          decide (d.name ∉ (((folders.filter (fun x =>
              !(keep_folder (report_tokens (pyOr rm max_reports_to_keep) fs) x))).filter
            (fun v => !(fail v.name))).map Folder.name)))) } := by
  simp [cleanup_screenshots, h, cleanup_screenshots_match_reports]

lemma cleanup_screenshots_last_result_fail (fail : String → Bool) (ms rm : Option Nat)
    (fs : FS) (folders : List Folder) (h : fs.screenshotsDir = some folders) :
    (cleanup_screenshots fail "last_execution" ms rm fs).1
      = { fs with screenshotsDir := some (folders.filter (fun d =>
          decide (d.name ∉ (((screenshot_victims (pyOr ms max_screenshots_to_keep)
            folders).filter (fun v => !(fail v.name))).map Folder.name)))) } := by
  simp [cleanup_screenshots, h, cleanup_screenshots_last_execution]

/-- An entry whose deletion did not fail is gone: no survivor carries its
name. -/
lemma name_excluded {α : Type} (nameOf : α → String) (l victims : List α)
    (fail : String → Bool) (f : α) (hf : f ∈ victims) (hfail : fail (nameOf f) = false)
    (g : α) (hg : g ∈ l.filter (fun a =>
      decide (nameOf a ∉ ((victims.filter (fun v => !(fail (nameOf v)))).map nameOf)))) :
    nameOf g ≠ nameOf f := by
  have hgnot := (List.mem_filter.mp hg).2
  simp only [decide_eq_true_eq] at hgnot
  intro e
  apply hgnot
  rw [e]
  exact List.mem_map_of_mem nameOf (List.mem_filter.mpr ⟨hf, by rw [hfail]; rfl⟩)

/-- C6: for each operation, a deletion-eligible entry whose own deletion
does not raise is deleted even when other deletions raise; the per-entry
`try/except` makes every operation total (it returns a state and a log, and
no filesystem or parsing error escapes — the model functions are total by
construction). -/
theorem C6_partial_failure_tolerance (fail : String → Bool) (fs : FS)
    (files logFiles : List FileEntry) (folders : List Folder)
    (mr ml ms rm : Option Nat)
    (hr : fs.reportsDir = some files) (hl : fs.logsDir = some logFiles)
    (hsc : fs.screenshotsDir = some folders) :
    (∀ f ∈ report_victims (pyOr mr max_reports_to_keep) files, fail f.name = false →
      ∀ g ∈ (cleanup_reports fail mr fs).1.reportsDir.getD [], g.name ≠ f.name) ∧
    (∀ f ∈ log_victims (pyOr ml max_reports_to_keep) logFiles, fail f.name = false →
      ∀ g ∈ (cleanup_logs fail ml fs).1.logsDir.getD [], g.name ≠ f.name) ∧
    (∀ d ∈ folders,
      keep_folder (report_tokens (pyOr rm max_reports_to_keep) fs) d = false →
      fail d.name = false →
      ∀ g ∈ (cleanup_screenshots fail "match_reports" ms rm
        fs).1.screenshotsDir.getD [], g.name ≠ d.name) ∧
    (∀ d ∈ screenshot_victims (pyOr ms max_screenshots_to_keep) folders,
      fail d.name = false →
      ∀ g ∈ (cleanup_screenshots fail "last_execution" ms rm
        fs).1.screenshotsDir.getD [], g.name ≠ d.name) := by
  refine ⟨?_, ?_, ?_, ?_⟩
  · intro f hf hfail g hg
    rw [cleanup_reports_result_fail fail mr fs files hr] at hg
    exact name_excluded FileEntry.name files _ fail f hf hfail g hg
  · intro f hf hfail g hg
    rw [cleanup_logs_result_fail fail ml fs logFiles hl] at hg
    exact name_excluded FileEntry.name logFiles _ fail f hf hfail g hg
  · intro d hd hkeep hfail g hg
    rw [cleanup_screenshots_match_result_fail fail ms rm fs folders hsc] at hg
    refine name_excluded Folder.name folders _ fail d ?_ hfail g hg
    exact List.mem_filter.mpr ⟨hd, by rw [hkeep]; rfl⟩
  · intro d hd hfail g hg
    rw [cleanup_screenshots_last_result_fail fail ms rm fs folders hsc] at hg
    exact name_excluded Folder.name folders _ fail d hd hfail g hg

/-- C6 witness: three reports, keep 1; deleting `b_2.html` raises, yet
`a_1.html` — also eligible — is still deleted. -/
theorem C6_witness :
    (∀ f ∈ report_victims (pyOr (some 1) max_reports_to_keep)
        [⟨"a_1.html", 10⟩, ⟨"b_2.html", 20⟩, ⟨"c_3.html", 30⟩],
      (fun s => decide (s = "b_2.html")) f.name = false →
      ∀ g ∈ (cleanup_reports (fun s => decide (s = "b_2.html")) (some 1)
          ⟨some [⟨"a_1.html", 10⟩, ⟨"b_2.html", 20⟩, ⟨"c_3.html", 30⟩], some [],
            some []⟩).1.reportsDir.getD [], g.name ≠ f.name) ∧
    (∀ f ∈ log_victims (pyOr none max_reports_to_keep) ([] : List FileEntry),
      (fun s => decide (s = "b_2.html")) f.name = false →
      ∀ g ∈ (cleanup_logs (fun s => decide (s = "b_2.html")) none
          ⟨some [⟨"a_1.html", 10⟩, ⟨"b_2.html", 20⟩, ⟨"c_3.html", 30⟩], some [],
            some []⟩).1.logsDir.getD [], g.name ≠ f.name) ∧
    (∀ d ∈ ([] : List Folder),
      keep_folder (report_tokens (pyOr none max_reports_to_keep)
        ⟨some [⟨"a_1.html", 10⟩, ⟨"b_2.html", 20⟩, ⟨"c_3.html", 30⟩], some [],
          some []⟩) d = false →
      (fun s => decide (s = "b_2.html")) d.name = false →
      ∀ g ∈ (cleanup_screenshots (fun s => decide (s = "b_2.html")) "match_reports"
          none none
          ⟨some [⟨"a_1.html", 10⟩, ⟨"b_2.html", 20⟩, ⟨"c_3.html", 30⟩], some [],
            some []⟩).1.screenshotsDir.getD [], g.name ≠ d.name) ∧
    (∀ d ∈ screenshot_victims (pyOr none max_screenshots_to_keep) ([] : List Folder),
      (fun s => decide (s = "b_2.html")) d.name = false →
      ∀ g ∈ (cleanup_screenshots (fun s => decide (s = "b_2.html")) "last_execution"
          none none
          ⟨some [⟨"a_1.html", 10⟩, ⟨"b_2.html", 20⟩, ⟨"c_3.html", 30⟩], some [],
            some []⟩).1.screenshotsDir.getD [], g.name ≠ d.name) :=
  C6_partial_failure_tolerance (fun s => decide (s = "b_2.html"))
    ⟨some [⟨"a_1.html", 10⟩, ⟨"b_2.html", 20⟩, ⟨"c_3.html", 30⟩], some [], some []⟩
    [⟨"a_1.html", 10⟩, ⟨"b_2.html", 20⟩, ⟨"c_3.html", 30⟩] [] [] (some 1) none none none
    rfl rfl rfl

/-- C7 counterexample: with strategy `"bogus"` (outside the two known
strategies) and a missing screenshots root, the operation deletes nothing
and returns — but emits no error-level entry (the missing-directory branch
logs at info level first), contradicting the claim as stated. -/
theorem C7_counterexample :
    ("bogus" ≠ "match_reports" ∧ "bogus" ≠ "last_execution") ∧
    (cleanup_screenshots (fun _ => false) "bogus" none none
        ⟨some [], some [], none⟩).2.filter
      (fun m => decide (m.level = LogLevel.error)) = [] ∧
    (cleanup_screenshots (fun _ => false) "bogus" none none
        ⟨some [], some [], none⟩).1 = ⟨some [], some [], none⟩ := by
  decide

/-- C7 amended: when the screenshots root exists, any strategy outside
`match_reports`/`last_execution` leaves the state untouched and produces
exactly one log entry, at error level; when the root is missing the
missing-directory branch runs first and only an info-level entry appears. -/
theorem C7_unknown_strategy_error (fail : String → Bool) (strategy : String)
    (ms rm : Option Nat) (fs : FS) (folders : List Folder)
    (h1 : strategy ≠ "match_reports") (h2 : strategy ≠ "last_execution")
    (hsc : fs.screenshotsDir = some folders) :
    cleanup_screenshots fail strategy ms rm fs
      = (fs, [⟨LogLevel.error, "Unknown screenshot cleanup strategy: " ++ strategy⟩]) := by
  simp [cleanup_screenshots, hsc, h1, h2]

/-- C7 witness: strategy `"bogus"` on an existing screenshots root. -/
theorem C7_witness :
    cleanup_screenshots (fun _ => false) "bogus" none none
        ⟨none, none, some [⟨"f", 1⟩]⟩
      = (⟨none, none, some [⟨"f", 1⟩]⟩,
          [⟨LogLevel.error, "Unknown screenshot cleanup strategy: " ++ "bogus"⟩]) :=
  C7_unknown_strategy_error (fun _ => false) "bogus" none none
    ⟨none, none, some [⟨"f", 1⟩]⟩ [⟨"f", 1⟩] (by decide) (by decide) rfl

/-- C8: when an operation's root directory is missing, the filesystem state
is returned unchanged and every log entry emitted is informational (and the
model functions are total, so nothing is raised). -/
theorem C8_missing_directory_noop (fail : String → Bool) (strategy : String)
    (mr ml ms rm : Option Nat) (fs : FS) :
    (fs.reportsDir = none →
      (cleanup_reports fail mr fs).1 = fs ∧
      ∀ m ∈ (cleanup_reports fail mr fs).2, m.level = LogLevel.info) ∧
    (fs.logsDir = none →
      (cleanup_logs fail ml fs).1 = fs ∧
      ∀ m ∈ (cleanup_logs fail ml fs).2, m.level = LogLevel.info) ∧
    (fs.screenshotsDir = none →
      (cleanup_screenshots fail strategy ms rm fs).1 = fs ∧
      ∀ m ∈ (cleanup_screenshots fail strategy ms rm fs).2,
        m.level = LogLevel.info) := by
  refine ⟨fun h => ?_, fun h => ?_, fun h => ?_⟩ <;>
    simp [cleanup_reports, cleanup_logs, cleanup_screenshots, h]

/-- C8 witness: all three roots missing. -/
theorem C8_witness :
    ((cleanup_reports (fun _ => false) none ⟨none, none, none⟩).1
        = ⟨none, none, none⟩ ∧
      ∀ m ∈ (cleanup_reports (fun _ => false) none ⟨none, none, none⟩).2,
        m.level = LogLevel.info) ∧
    ((cleanup_logs (fun _ => false) none ⟨none, none, none⟩).1
        = ⟨none, none, none⟩ ∧
      ∀ m ∈ (cleanup_logs (fun _ => false) none ⟨none, none, none⟩).2,
        m.level = LogLevel.info) ∧
    ((cleanup_screenshots (fun _ => false) "match_reports" none none
          ⟨none, none, none⟩).1 = ⟨none, none, none⟩ ∧
      ∀ m ∈ (cleanup_screenshots (fun _ => false) "match_reports" none none
          ⟨none, none, none⟩).2, m.level = LogLevel.info) :=
  ⟨(C8_missing_directory_noop (fun _ => false) "match_reports" none none none none
      ⟨none, none, none⟩).1 rfl,
    (C8_missing_directory_noop (fun _ => false) "match_reports" none none none none
      ⟨none, none, none⟩).2.1 rfl,
    (C8_missing_directory_noop (fun _ => false) "match_reports" none none none none
      ⟨none, none, none⟩).2.2 rfl⟩

/-- A basename without `_` yields no parsed token. -/
lemma extractToken_eq_none (filename : String) (h : '_' ∉ filename.toList) :
    extractToken filename = none := by
  rw [extractToken, splitFirstOn_eq_none '_' filename.toList h]

/-- C9: a report among the `n` most recent whose basename has no `_` falls
back to the mtime-formatted token `YYYY-MM-DD_HH-MM-SS`, and a folder whose
name contains that token survives `match_reports`. -/
theorem C9_fallback_token (fs : FS) (files : List FileEntry) (folders : List Folder)
    (r : FileEntry) (d : Folder) (n : Nat) (hn : 0 < n)
    (hrep : fs.reportsDir = some files) (hscr : fs.screenshotsDir = some folders)
    (hnodup : (folders.map Folder.name).Nodup)
    (hr : r ∈ (sortByMtimeDesc (files.filter matchesHtmlGlob)).take n)
    (hus : '_' ∉ r.name.toList)
    (hd : d ∈ folders)
    (hmatch : containsSub (strftime_token r.mtime).toList d.name.toList = true) :
    report_token r = strftime_token r.mtime ∧
    ∃ folders1,
      (cleanup_screenshots (fun _ => false) "match_reports" none (some n)
        fs).1.screenshotsDir = some folders1 ∧ d ∈ folders1 := by
  have htok : report_token r = strftime_token r.mtime := by
    rw [report_token, extractToken_eq_none r.name hus]
  refine ⟨htok, ?_⟩
  rw [cleanup_screenshots_match_result_nodup none (some n) fs folders hscr hnodup,
    pyOr_pos n max_reports_to_keep hn]
  refine ⟨_, rfl, ?_⟩
  apply List.mem_filter.mpr
  refine ⟨hd, ?_⟩
  simp only [keep_folder]
  apply List.any_eq_true.mpr
  refine ⟨strftime_token r.mtime, ?_, hmatch⟩
  rw [report_tokens, hrep]
  simp only [Option.getD_some]
  rw [← htok]
  exact List.mem_map_of_mem report_token hr

/-- C9 witness: `reportfinal.html` at epoch 0 produces the fallback token
`1970-01-01_00-00-00`, and the folder named by that token survives. -/
theorem C9_witness :
    report_token ⟨"reportfinal.html", 0⟩ = strftime_token 0 ∧
    ∃ folders1,
      (cleanup_screenshots (fun _ => false) "match_reports" none (some 1)
          ⟨some [⟨"reportfinal.html", 0⟩], none,
            some [⟨"1970-01-01_00-00-00", 50⟩]⟩).1.screenshotsDir = some folders1 ∧
      (⟨"1970-01-01_00-00-00", 50⟩ : Folder) ∈ folders1 :=
  C9_fallback_token ⟨some [⟨"reportfinal.html", 0⟩], none,
      some [⟨"1970-01-01_00-00-00", 50⟩]⟩
    [⟨"reportfinal.html", 0⟩] [⟨"1970-01-01_00-00-00", 50⟩]
    ⟨"reportfinal.html", 0⟩ ⟨"1970-01-01_00-00-00", 50⟩ 1
    (by decide) rfl rfl (by decide) (by decide) (by decide) (by decide) (by decide)

/-- C10: when the reports directory holds no `*.html` file — in particular
when it does not exist at all while the screenshots root does — the token
list is empty and every screenshot folder is deleted. -/
theorem C10_no_reports_deletes_all_folders (fs : FS) (folders : List Folder)
    (rm : Option Nat) (hscr : fs.screenshotsDir = some folders)
    (hnohtml : (fs.reportsDir.getD []).filter matchesHtmlGlob = []) :
    report_tokens (pyOr rm max_reports_to_keep) fs = [] ∧
    (cleanup_screenshots (fun _ => false) "match_reports" none rm
      fs).1.screenshotsDir = some [] := by
  have htok : ∀ n, report_tokens n fs = [] := by
    intro n
    rw [report_tokens, hnohtml]
    simp [sortByMtimeDesc, sortDescBy]
  refine ⟨htok _, ?_⟩
  rw [cleanup_screenshots_match_result none rm fs folders hscr]
  simp only [htok]
  have hnil : folders.filter (fun d =>
      decide (d.name ∉ ((folders.filter (fun x =>
        !(keep_folder [] x))).map Folder.name))) = [] := by
    apply List.filter_eq_nil_iff.mpr
    intro d hd
    simp only [keep_folder, List.any_nil, Bool.not_false, List.filter_true,
      decide_eq_true_eq, not_not]
    exact List.mem_map_of_mem Folder.name hd
  rw [hnil]

/-- C10 witness: no reports directory at all, one screenshot folder. -/
theorem C10_witness :
    report_tokens (pyOr none max_reports_to_keep)
      ⟨none, none, some [⟨"folder1", 5⟩]⟩ = [] ∧
    (cleanup_screenshots (fun _ => false) "match_reports" none none
      ⟨none, none, some [⟨"folder1", 5⟩]⟩).1.screenshotsDir = some [] :=
  C10_no_reports_deletes_all_folders ⟨none, none, some [⟨"folder1", 5⟩]⟩
    [⟨"folder1", 5⟩] none rfl rfl
